import Mathlib

/-!
# Verification of the Bazarino shop bot core

Shallow embedding of the core data model and operations of the bot
(catalog cache, cart aggregate, stock commit, checkout conversation,
discount validation, remote-call retrier), translated from the Python
source (`main.py`, `handlers.py`, `g_sheets.py`), together with theorems
settling the specification claims.

Conventions of the embedding:
* Python numbers: product prices and discount percents are embedded as `ℚ`
  (the source uses `float(...)` on sheet cells), stock and quantities as `ℤ`
  (`int(...)`), timestamps as `ℤ` (the source compares `datetime` values,
  which are totally ordered; only the order matters to the claims).
* Python dicts keyed by id are embedded as association lists
  (`List (String × _)`), preserving insertion order; `dict[k]` lookups use
  `List.lookup`, which returns the first binding, matching Python semantics
  for the unique-key sheets.
* Worksheet I/O is embedded as explicit state passing: the products
  worksheet is a `List SheetRow` (row order = sheet order), the orders and
  abandoned-cart worksheets are append logs.
* Fallible operations return a `Bool` success flag exactly where the source
  returns one (`add_cart`, `update_stock`); exception control flow that the
  source catches locally is embedded as the corresponding branch.
-/

namespace Bazarino

/-- A product as parsed by `load_products` (`main.py`): the fields the cart
and stock logic consume. `price = float(r["price"])`, `stock = int(r.get("stock", 0))`. -/
structure Product where
  cat : String
  fa : String
  it : String
  price : ℚ
  weight : String
  stock : ℤ
  deriving Repr, DecidableEq

/-- The in-memory product map `get_products._data`: an association list of
product id to `Product`, insertion ordered like the Python dict. -/
abbrev Catalog := List (String × Product)

/-- A cart line item as built by `add_cart` (`main.py` line 709):
`dict(id=pid, fa=p["fa"], price=p["price"], weight=p["weight"], qty=qty)`. -/
structure CartLine where
  id : String
  fa : String
  price : ℚ
  weight : String
  qty : ℤ
  deriving Repr, DecidableEq

/-- `cart_total` (`main.py` line 533): `sum(i["qty"] * i["price"] for i in c)`. -/
def cart_total (c : List CartLine) : ℚ :=
  (c.map (fun i => (i.qty : ℚ) * i.price)).sum

/-- `next((i for i in cart if i["id"] == pid), None)` (`main.py` line 700):
the first cart line with the given product id, if any. -/
def curLine (cart : List CartLine) (pid : String) : Option CartLine :=
  cart.find? (fun i => i.id == pid)

/-- The quantity already in the cart for a product: `cur["qty"] if cur else 0`. -/
def curQty (cart : List CartLine) (pid : String) : ℤ :=
  ((curLine cart pid).map (fun i => i.qty)).getD 0

/-- Mutation of the first cart line with the given id, embedding the Python
in-place `cur["qty"] += qty` on the line found by `next(...)`. -/
def updateFirst (pid : String) (f : CartLine → CartLine) : List CartLine → List CartLine
  | [] => []
  | i :: rest => if i.id == pid then f i :: rest else i :: updateFirst pid f rest

/-- Removal of the first cart line with the given id, embedding
`cart.remove(item)` on the line found by `next(...)` (`main.py` router). -/
def removeFirst (pid : String) : List CartLine → List CartLine
  | [] => []
  | i :: rest => if i.id == pid then rest else i :: removeFirst pid rest

/-- `add_cart(ctx, pid, qty)` (`main.py` lines 690-735, identically
`handlers.py` lines 98-127). Returns the success flag, the user-facing
message key (`m("STOCK_EMPTY")` / `m("CART_ADDED")`), and the resulting
cart. The abandoned-cart append and low-stock alert side effects do not
touch the cart and are modelled where the claims need them (`conv_step`,
`routerCartStep`). -/
def add_cart (prods : Catalog) (cart : List CartLine) (pid : String) (qty : ℤ) :
    Bool × String × List CartLine :=
  match prods.lookup pid with
  | none => (false, "STOCK_EMPTY", cart)
  | some p =>
    if p.stock < curQty cart pid + qty then
      (false, "STOCK_EMPTY", cart)
    else
      match curLine cart pid with
      | some _ => (true, "CART_ADDED", updateFirst pid (fun i => { i with qty := i.qty + qty }) cart)
      | none => (true, "CART_ADDED", cart ++ [⟨pid, p.fa, p.price, p.weight, qty⟩])

/-- `decrement_item(ctx, pid)` (`handlers.py` lines 150-158): decrement the
first line with the given id; remove it if its quantity drops to `≤ 0`.
Returns whether a line was found, and the resulting cart. -/
def decrement_item (pid : String) : List CartLine → Bool × List CartLine
  | [] => (false, [])
  | i :: rest =>
    if i.id == pid then
      let i2 : CartLine := { i with qty := i.qty - 1 }
      if i2.qty ≤ 0 then (true, rest) else (true, i2 :: rest)
    else
      let r := decrement_item pid rest
      (r.1, i :: r.2)

/-- `remove_item(ctx, pid)` (`handlers.py` lines 160-163):
`[it for it in cart if it["id"] != pid]`. -/
def remove_item (pid : String) (cart : List CartLine) : List CartLine :=
  cart.filter (fun i => !(i.id == pid))

/-- The cart mutations reachable from the inline-keyboard callbacks
(`add_`/`inc_`/`dec_`/`del_`) of the live router in `main.py`
(lines 1496-1543) together with the `handlers.py` helper variants. -/
inductive CartOp where
  | addBtn (pid : String)
  | inc (pid : String)
  | dec (pid : String)
  | del (pid : String)
  | hdec (pid : String)
  | hdel (pid : String)
  deriving Repr, DecidableEq

/-- One cart mutation step. `addBtn` is the `add_` callback (`main.py`
line 1496): `add_cart(ctx, pid, qty=1)`. `inc`/`dec`/`del` are the
`inc_`/`dec_`/`del_` callbacks (`main.py` lines 1530-1543): they first look
the line up and do nothing when absent; `inc` calls `add_cart(ctx, pid, 1)`,
`dec` does `item["qty"] = max(1, item["qty"] - 1)`, `del` does
`cart.remove(item)`. `hdec`/`hdel` are `handlers.decrement_item` /
`handlers.remove_item`. -/
def routerCartStep (prods : Catalog) (cart : List CartLine) : CartOp → List CartLine
  | .addBtn pid => (add_cart prods cart pid 1).2.2
  | .inc pid =>
    match curLine cart pid with
    | none => cart
    | some _ => (add_cart prods cart pid 1).2.2
  | .dec pid =>
    match curLine cart pid with
    | none => cart
    | some _ => updateFirst pid (fun i => { i with qty := max 1 (i.qty - 1) }) cart
  | .del pid =>
    match curLine cart pid with
    | none => cart
    | some _ => removeFirst pid cart
  | .hdec pid => (decrement_item pid cart).2
  | .hdel pid => remove_item pid cart

/-- The cart invariant claimed by the spec: no line has quantity `≤ 0`. -/
def CartInv (cart : List CartLine) : Prop :=
  ∀ i ∈ cart, 1 ≤ i.qty

/-! ## Stock commit (`update_stock`, `main.py` lines 759-788)

The products worksheet is a list of rows; `get_all_records` reads the
whole list once (the `records` snapshot), and `update_cell(idx, 10, v)`
writes the stock column of the row at 1-based sheet index `idx` (rows
start at 2, so sheet index `idx` is list index `idx - 2`). The in-memory
cache echo (`(await get_products())[pid]["stock"] = new_stock`) touches
only the cache, not the store, and is outside the store-directed claims. -/

/-- A products-worksheet row, restricted to the columns `update_stock`
reads and writes: the product id and the stock column. -/
structure SheetRow where
  id : String
  stock : ℤ
  deriving Repr, DecidableEq

/-- `update_cell(idx, 10, v)`: write the stock of the row at (0-based)
list index `idx`. -/
def setStock : List SheetRow → ℕ → ℤ → List SheetRow
  | [], _, _ => []
  | r :: rs, 0, v => { r with stock := v } :: rs
  | r :: rs, n + 1, v => r :: setStock rs n v

/-- The inner `for idx, row in enumerate(records, start=2)` scan of
`update_stock` for one cart line: every record row whose id matches gets
`new_stock = row["stock"] - qty` computed from the snapshot and written to
the store at its index; a negative `new_stock` aborts immediately
(`return False`), keeping the store as written so far. -/
def commitLine (pid : String) (qty : ℤ) :
    List SheetRow → ℕ → List SheetRow → Bool × List SheetRow
  | [], _, store => (true, store)
  | r :: rest, idx, store =>
    if r.id == pid then
      let newStock := r.stock - qty
      if newStock < 0 then (false, store)
      else commitLine pid qty rest (idx + 1) (setStock store idx newStock)
    else commitLine pid qty rest (idx + 1) store

/-- The outer `for it in cart` loop of `update_stock`: each line is
committed against the same `records` snapshot; a `False` from a line
aborts with the store as written so far. -/
def commitCart (records : List SheetRow) :
    List CartLine → List SheetRow → Bool × List SheetRow
  | [], store => (true, store)
  | it :: rest, store =>
    match commitLine it.id it.qty records 0 store with
    | (true, store2) => commitCart records rest store2
    | (false, store2) => (false, store2)

/-- `update_stock(cart)` (`main.py` lines 759-788): re-read the store
(`records := store`), then commit every cart line. Returns the success
flag and the resulting store. -/
def update_stock (cart : List CartLine) (store : List SheetRow) : Bool × List SheetRow :=
  commitCart store cart store

/-! ## Catalog cache (`get_products`, `main.py` lines 494-519)

The cache lives in the function-attribute triple `_data`, `_version`,
`_ts`; `Option` embeds `hasattr`. The version-marker cell `L1` is read
first on every call; the operations issued to the store are returned as an
explicit trace. `_ts` holds the expiry instant (`utcnow() + 60s`); when
the `_ts` attribute is missing, `getattr(..., dt.datetime.min)` makes the
`utcnow() > _ts` comparison true, hence a reload. -/

/-- The cache state of `get_products`. -/
structure GPState where
  data : Option Catalog
  version : Option String
  ts : Option ℤ
  deriving Repr, DecidableEq

/-- A store operation issued by `get_products`: the version-marker cell
read (`products_ws.acell("L1")`) or the full product-list reload
(`load_products()`). -/
inductive StoreOp where
  | readMarker
  | fullReload
  deriving Repr, DecidableEq

/-- The reload condition of `get_products` (lines 501-504): no `_data`
attribute, or no `_version` attribute, or `_version != current_version`,
or `utcnow() > getattr(get_products, "_ts", dt.datetime.min)`. -/
def gp_needs_reload (currentVersion : String) (now : ℤ) (s : GPState) : Bool :=
  s.data.isNone || s.version.isNone || !(s.version == some currentVersion) ||
    (match s.ts with
     | none => true
     | some t => decide (t < now))

/-- `get_products()` (`main.py` lines 494-519). Inputs: the store's
current version-marker cell value, the product list a reload would parse
(`load_products()`), the current time, and the cache state. Output: the
trace of store operations, the returned product map, and the new cache
state. -/
def get_products (currentVersion : String) (freshData : Catalog) (now : ℤ)
    (s : GPState) : List StoreOp × Catalog × GPState :=
  if gp_needs_reload currentVersion now s then
    ([StoreOp.readMarker, StoreOp.fullReload], freshData,
      { data := some freshData, version := some currentVersion, ts := some (now + 60) })
  else
    ([StoreOp.readMarker], s.data.getD [], s)

/-! ## Remote-call retrier (`retry_gspread`, `g_sheets.py` lines 11-20) -/

/-- The outcome of one attempt of the wrapped operation: a result, a
`gspread.exceptions.APIError`, or any other exception. -/
inductive Outcome (α : Type) where
  | ok (v : α)
  | apiErr (e : String)
  | otherErr (e : String)
  deriving Repr, DecidableEq

/-- The final result of `retry_gspread`: the operation's value, a re-raised
`APIError` after the last attempt, or an immediately propagated
non-`APIError` exception. -/
inductive RetryResult (α : Type) where
  | success (v : α)
  | apiFailure (e : String)
  | otherFailure (e : String)
  deriving Repr, DecidableEq

/-- The `for attempt in range(retries)` loop of `retry_gspread`, with
`fuel = retries - attempt` remaining iterations. On an `APIError` at
`attempt == retries - 1` the error is re-raised; otherwise the loop sleeps
`delay * (2 ** attempt)` and retries. Any other exception is not caught.
The sleeps performed are returned alongside the result. -/
def retryGo {α : Type} (f : ℕ → Outcome α) (retries : ℕ) (delay : ℚ) :
    ℕ → ℕ → RetryResult α × List ℚ
  | 0, _ => (RetryResult.otherFailure "Max retries reached for Google Sheets operation", [])
  | fuel + 1, attempt =>
    match f attempt with
    | Outcome.ok v => (RetryResult.success v, [])
    | Outcome.otherErr e => (RetryResult.otherFailure e, [])
    | Outcome.apiErr e =>
      if attempt = retries - 1 then (RetryResult.apiFailure e, [])
      else
        let r := retryGo f retries delay fuel (attempt + 1)
        (r.1, delay * 2 ^ attempt :: r.2)

/-- `retry_gspread(func, *args, retries=3, delay=1)` (`g_sheets.py`
lines 11-20), over the sequence of attempt outcomes `f`. -/
def retry_gspread {α : Type} (f : ℕ → Outcome α) (retries : ℕ := 3) (delay : ℚ := 1) :
    RetryResult α × List ℚ :=
  retryGo f retries delay retries 0

/-! ## Discounts and the checkout conversation

`load_discounts` (`main.py` lines 464-491) parses the discounts sheet into
`code ↦ {discount_percent: float, valid_until: date, is_active: bool}`;
the date is embedded post-parse as a `ℤ` instant (the source compares
`strptime(valid_until, "%Y-%m-%d") >= utcnow()`, a total-order test).

The conversation is the `ConversationHandler` registered in `main.py`
(lines 1330-1341). Dispatch follows the Telegram library's documented
rule: the current state's handlers are checked first, and the `fallbacks`
(here `CommandHandler("cancel", cancel_order)`) only run when no state
handler matched. The states `ASK_NAME .. ASK_POSTAL` use
`filters.TEXT & ~filters.COMMAND`, so a command (text starting with "/")
falls through to the fallback; `ASK_DISCOUNT` and `ASK_NOTES` use
`filters.TEXT | filters.COMMAND`, which matches every text including
commands, so the fallback is unreachable there. -/

/-- A discount row as parsed by `load_discounts`. -/
structure Discount where
  discount_percent : ℚ
  valid_until : ℤ
  is_active : Bool
  deriving Repr, DecidableEq

/-- The validity test of `ask_notes` (`main.py` lines 871-873): the code is
in the freshly loaded map, `is_active`, and
`strptime(valid_until) >= utcnow()`. -/
def discountValid (discounts : List (String × Discount)) (now : ℤ) (code : String) : Bool :=
  match discounts.lookup code with
  | none => false
  | some d => d.is_active && decide (now ≤ d.valid_until)

/-- The conversation state: `ASK_NAME .. ASK_NOTES = range(6)`
(`main.py` line 791) plus `ConversationHandler.END`. -/
inductive ConvState where
  | askName
  | askPhone
  | askAddress
  | askPostal
  | askDiscount
  | askNotes
  | ended
  deriving Repr, DecidableEq

/-- The checkout fields of `ctx.user_data`. `ctx.user_data.clear()` is the
default value. `discount_code = none` covers both the absent key and the
`None` stored on `/skip` (both are falsy at `ctx.user_data.get`). -/
structure Session where
  name : String := ""
  handle : String := ""
  user_id : ℤ := 0
  phone : String := ""
  address : String := ""
  postal : String := ""
  discount_code : Option String := none
  notes : String := ""
  dest : String := ""
  cart : List CartLine := []
  deriving Repr, DecidableEq

/-- One appended orders-worksheet row (`main.py` lines 920-930); the
timestamp and the generated order id are passed in by the caller of the
step (they are fresh values in the source). -/
structure OrderRow where
  ts : String
  order_id : String
  user_id : ℤ
  handle : String
  name : String
  phone : String
  address_full : String
  dest : String
  pid : String
  product_fa : String
  qty : ℤ
  unit_price : ℚ
  subtotal : ℚ
  notes : String
  discount_code : Option String
  discount_amount : ℚ
  status : String
  notified : String
  deriving Repr, DecidableEq

/-- An abandoned-cart log record (`abandoned_cart_ws.append_row`):
timestamp, user id, serialized cart. -/
structure AbandonedRecord where
  ts : String
  user_id : ℤ
  cart : List CartLine
  deriving Repr, DecidableEq

/-- The state the conversation steps act on: the conversation position,
the per-user session, the products store, the append-only orders and
abandoned-cart logs, the discounts sheet, and the current time. The field
`confirmedTotal` records the total rendered in the most recent
order-confirmation message. -/
structure World where
  conv : ConvState
  sess : Session
  store : List SheetRow
  orders : List OrderRow
  abandoned : List AbandonedRecord
  discounts : List (String × Discount)
  now : ℤ
  confirmedTotal : Option ℚ := none
  deriving Repr, DecidableEq

/-- Python `str.strip()`: remove whitespace from both ends of the string.
Implemented by structural recursion over the character list so concrete
inputs evaluate inside the kernel. -/
def pyStrip (s : String) : String :=
  String.mk (((s.data.dropWhile Char.isWhitespace).reverse.dropWhile
    Char.isWhitespace).reverse)

/-- `filters.COMMAND`: a text message whose text starts with "/". -/
def isCommand (s : String) : Bool := s.startsWith "/"

/-- `cancel_order` (`main.py` lines 997-1006): `ctx.user_data.clear()` and
`ConversationHandler.END`. -/
def cancel_order (w : World) : World :=
  { w with sess := {}, conv := ConvState.ended }

/-- `ask_notes` (`main.py` lines 862-885), the `ASK_DISCOUNT` state
handler: `/skip` stores no code; otherwise the trimmed text is validated
against the freshly loaded discounts; a valid code is stored and the state
advances, invalid input re-enters `ASK_DISCOUNT`. -/
def ask_notes (w : World) (input : String) : World :=
  if input = "/skip" then
    { w with sess := { w.sess with discount_code := none }, conv := ConvState.askNotes }
  else
    let code := pyStrip input
    if discountValid w.discounts w.now code then
      { w with sess := { w.sess with discount_code := some code }, conv := ConvState.askNotes }
    else
      w

/-- The rows appended for the order, one per cart line (`main.py`
lines 920-930). -/
def orderRows (oid ts : String) (sess : Session) (discount : ℚ) : List OrderRow :=
  sess.cart.map (fun it =>
    { ts := ts, order_id := oid, user_id := sess.user_id, handle := sess.handle,
      name := sess.name, phone := sess.phone,
      address_full := sess.address ++ " | " ++ sess.postal, dest := sess.dest,
      pid := it.id, product_fa := it.fa, qty := it.qty, unit_price := it.price,
      subtotal := (it.qty : ℚ) * it.price, notes := sess.notes,
      discount_code := sess.discount_code, discount_amount := discount,
      status := "preparing", notified := "FALSE" })

/-- `confirm_order` (`main.py` lines 887-995), the `ASK_NOTES` state
handler: store the notes; an empty cart or a failed `update_stock` clears
the session and ends (the stock writes made before the failure stay in the
store); otherwise compute the total, apply the chosen discount from the
freshly loaded map (a code that vanished from the map raises `KeyError`,
caught by the outer handler: session cleared, no rows appended), append
one orders row per line, clear the abandoned-cart worksheet, clear the
session, and end. -/
def confirm_order (oid ts : String) (w : World) (input : String) : World :=
  let notes := if input = "/skip" then "" else pyStrip input
  let sess := { w.sess with notes := notes }
  if sess.cart.isEmpty then
    { w with sess := {}, conv := ConvState.ended }
  else
    match update_stock sess.cart w.store with
    | (false, store2) =>
      { w with store := store2, sess := {}, conv := ConvState.ended }
    | (true, store2) =>
      let total := cart_total sess.cart
      match sess.discount_code with
      | some code =>
        match w.discounts.lookup code with
        | none =>
          { w with store := store2, sess := {}, conv := ConvState.ended }
        | some d =>
          let discount := total * (d.discount_percent / 100)
          { w with store := store2,
                   orders := w.orders ++ orderRows oid ts sess discount,
                   abandoned := [],
                   confirmedTotal := some (total - discount),
                   sess := {}, conv := ConvState.ended }
      | none =>
        { w with store := store2,
                 orders := w.orders ++ orderRows oid ts sess 0,
                 abandoned := [],
                 confirmedTotal := some total,
                 sess := {}, conv := ConvState.ended }

/-- One conversation step on a text input, dispatching exactly as the
registered `ConversationHandler` does (see the section comment). In the
four `TEXT & ~COMMAND` states a non-command input runs the state handler
(which trims and stores the field and advances, `main.py` lines 818-860),
`/cancel` runs the fallback, and any other command matches no handler and
leaves the state unchanged. -/
def conv_step (oid ts : String) (w : World) (input : String) : World :=
  match w.conv with
  | ConvState.askName =>
    if !(isCommand input) then
      { w with sess := { w.sess with name := pyStrip input }, conv := ConvState.askPhone }
    else if input = "/cancel" then cancel_order w else w
  | ConvState.askPhone =>
    if !(isCommand input) then
      { w with sess := { w.sess with phone := pyStrip input }, conv := ConvState.askAddress }
    else if input = "/cancel" then cancel_order w else w
  | ConvState.askAddress =>
    if !(isCommand input) then
      { w with sess := { w.sess with address := pyStrip input }, conv := ConvState.askPostal }
    else if input = "/cancel" then cancel_order w else w
  | ConvState.askPostal =>
    if !(isCommand input) then
      { w with sess := { w.sess with postal := pyStrip input }, conv := ConvState.askDiscount }
    else if input = "/cancel" then cancel_order w else w
  | ConvState.askDiscount => ask_notes w input
  | ConvState.askNotes => confirm_order oid ts w input
  | ConvState.ended => w

/-! ## Helper lemmas on carts -/

/-- A cart satisfying the invariant has nonnegative current quantity for
every product id. -/
theorem curQty_nonneg (cart : List CartLine) (pid : String) (h : CartInv cart) :
    0 ≤ curQty cart pid := by
  unfold curQty curLine
  cases hf : cart.find? (fun i => i.id == pid) with
  | none => simp
  | some c =>
    have hc : c ∈ cart := List.mem_of_find?_eq_some hf
    have := h c hc
    simpa using le_trans (by norm_num) this

/-- `updateFirst` preserves the cart invariant when the mutation does. -/
theorem CartInv_updateFirst (pid : String) (f : CartLine → CartLine)
    (hf : ∀ i, 1 ≤ i.qty → 1 ≤ (f i).qty) :
    ∀ cart : List CartLine, CartInv cart → CartInv (updateFirst pid f cart) := by
  intro cart
  induction cart with
  | nil => intro _; simp [updateFirst, CartInv]
  | cons i rest ih =>
    intro h j hj
    have hi : 1 ≤ i.qty := h i (by simp)
    have hrest : CartInv rest := fun k hk => h k (by simp [hk])
    unfold updateFirst at hj
    by_cases hid : (i.id == pid) = true
    · simp [hid] at hj
      rcases hj with hj | hj
      · exact hj ▸ hf i hi
      · exact hrest j hj
    · simp [hid] at hj
      rcases hj with hj | hj
      · exact hj ▸ hi
      · exact ih hrest j hj

/-- Unfolding equation for `removeFirst` on a cons cell. -/
theorem removeFirst_cons (pid : String) (i : CartLine) (rest : List CartLine) :
    removeFirst pid (i :: rest) =
      if i.id == pid then rest else i :: removeFirst pid rest := rfl

/-- Unfolding equation for `updateFirst` on a cons cell. -/
theorem updateFirst_cons (pid : String) (f : CartLine → CartLine) (i : CartLine)
    (rest : List CartLine) :
    updateFirst pid f (i :: rest) =
      if i.id == pid then f i :: rest else i :: updateFirst pid f rest := rfl

/-- Unfolding equation for `decrement_item` on a cons cell. -/
theorem decrement_item_cons (pid : String) (i : CartLine) (rest : List CartLine) :
    decrement_item pid (i :: rest) =
      if i.id == pid then
        (if i.qty - 1 ≤ 0 then (true, rest)
         else (true, ({ i with qty := i.qty - 1 } : CartLine) :: rest))
      else ((decrement_item pid rest).1, i :: (decrement_item pid rest).2) := rfl

/-- `removeFirst` preserves the cart invariant. -/
theorem CartInv_removeFirst (pid : String) :
    ∀ cart : List CartLine, CartInv cart → CartInv (removeFirst pid cart) := by
  intro cart
  induction cart with
  | nil => intro h; exact h
  | cons i rest ih =>
    intro h j hj
    have hrest : CartInv rest := fun k hk => h k (by simp [hk])
    rw [removeFirst_cons] at hj
    by_cases hid : (i.id == pid) = true
    · rw [if_pos hid] at hj
      exact hrest j hj
    · rw [if_neg hid] at hj
      rcases List.mem_cons.mp hj with hj | hj
      · exact hj ▸ h i (by simp)
      · exact ih hrest j hj

/-- `add_cart` with requested quantity 1 preserves the cart invariant. -/
theorem CartInv_add_cart (prods : Catalog) (pid : String) (cart : List CartLine)
    (h : CartInv cart) : CartInv (add_cart prods cart pid 1).2.2 := by
  unfold add_cart
  cases hp : prods.lookup pid with
  | none => simpa using h
  | some p =>
    by_cases hs : p.stock < curQty cart pid + 1
    · simpa [hs] using h
    · cases hc : curLine cart pid with
      | some c =>
        simp only [hs, if_false]
        exact CartInv_updateFirst pid (fun i => { i with qty := i.qty + 1 })
          (fun i hi => by simp; omega) cart h
      | none =>
        simp only [hs, if_false]
        intro j hj
        rcases List.mem_append.mp hj with hj | hj
        · exact h j hj
        · simp at hj
          subst hj
          norm_num

/-- `decrement_item` preserves the cart invariant. -/
theorem CartInv_decrement_item (pid : String) :
    ∀ cart : List CartLine, CartInv cart → CartInv (decrement_item pid cart).2 := by
  intro cart
  induction cart with
  | nil => intro h; simpa [decrement_item] using h
  | cons i rest ih =>
    intro h
    have hrest : CartInv rest := fun k hk => h k (by simp [hk])
    rw [decrement_item_cons]
    by_cases hid : (i.id == pid) = true
    · rw [if_pos hid]
      by_cases hq : i.qty - 1 ≤ 0
      · rw [if_pos hq]
        exact hrest
      · rw [if_neg hq]
        intro j hj
        rcases List.mem_cons.mp hj with hj | hj
        · subst hj; simp; omega
        · exact hrest j hj
    · rw [if_neg hid]
      intro j hj
      simp at hj
      rcases hj with hj | hj
      · exact hj ▸ h i (by simp)
      · exact ih hrest j hj

/-- `remove_item` preserves the cart invariant. -/
theorem CartInv_remove_item (pid : String) (cart : List CartLine) (h : CartInv cart) :
    CartInv (remove_item pid cart) := by
  intro j hj
  exact h j (List.mem_of_mem_filter hj)

/-- Every single cart mutation step preserves the invariant. -/
theorem CartInv_routerCartStep (prods : Catalog) (cart : List CartLine) (op : CartOp)
    (h : CartInv cart) : CartInv (routerCartStep prods cart op) := by
  cases op with
  | addBtn pid => exact CartInv_add_cart prods pid cart h
  | inc pid =>
    simp only [routerCartStep]
    cases hc : curLine cart pid with
    | none => simpa [hc] using h
    | some c => simpa [hc] using CartInv_add_cart prods pid cart h
  | dec pid =>
    simp only [routerCartStep]
    cases hc : curLine cart pid with
    | none => simpa [hc] using h
    | some c =>
      have := CartInv_updateFirst pid
        (fun i => { i with qty := max 1 (i.qty - 1) })
        (fun i hi => le_max_left 1 (i.qty - 1)) cart h
      simpa [hc] using this
  | del pid =>
    simp only [routerCartStep]
    cases hc : curLine cart pid with
    | none => simpa [hc] using h
    | some c => simpa [hc] using CartInv_removeFirst pid cart h
  | hdec pid => exact CartInv_decrement_item pid cart h
  | hdel pid => exact CartInv_remove_item pid cart h

/-- The invariant is preserved by any sequence of cart mutation steps. -/
theorem CartInv_foldl (prods : Catalog) (ops : List CartOp) :
    ∀ cart : List CartLine, CartInv cart →
      CartInv (ops.foldl (routerCartStep prods) cart) := by
  induction ops with
  | nil => intro cart h; simpa using h
  | cons op rest ih =>
    intro cart h
    exact ih (routerCartStep prods cart op) (CartInv_routerCartStep prods cart op h)

/-- Unfolding equation for `curLine` on a cons cell. -/
theorem curLine_cons (pid : String) (i : CartLine) (rest : List CartLine) :
    curLine (i :: rest) pid = if i.id == pid then some i else curLine rest pid := by
  unfold curLine
  rw [List.find?_cons]
  cases hb : (i.id == pid) <;> simp [hb]

/-- Pointwise equal mutations give equal `updateFirst` results. -/
theorem updateFirst_congr (pid : String) (f g : CartLine → CartLine)
    (h : ∀ i, f i = g i) :
    ∀ cart : List CartLine, updateFirst pid f cart = updateFirst pid g cart := by
  intro cart
  induction cart with
  | nil => rfl
  | cons i rest ih =>
    rw [updateFirst_cons, updateFirst_cons, h i, ih]

/-- Looking up after an id-preserving mutation finds the mutated line. -/
theorem curLine_updateFirst (pid : String) (f : CartLine → CartLine)
    (hf : ∀ i, (f i).id = i.id) :
    ∀ cart : List CartLine,
      curLine (updateFirst pid f cart) pid = (curLine cart pid).map f := by
  intro cart
  induction cart with
  | nil => rfl
  | cons i rest ih =>
    rw [updateFirst_cons]
    by_cases h : (i.id == pid) = true
    · rw [if_pos h, curLine_cons, curLine_cons, if_pos h,
        if_pos (by rw [hf i]; exact h)]
      rfl
    · rw [if_neg h, curLine_cons, curLine_cons, if_neg h, if_neg h, ih]

/-- Two id-preserving mutations of the first matching line compose. -/
theorem updateFirst_updateFirst (pid : String) (f g : CartLine → CartLine)
    (hf : ∀ i, (f i).id = i.id) :
    ∀ cart : List CartLine,
      updateFirst pid g (updateFirst pid f cart) =
        updateFirst pid (fun i => g (f i)) cart := by
  intro cart
  induction cart with
  | nil => rfl
  | cons i rest ih =>
    rw [updateFirst_cons]
    by_cases h : (i.id == pid) = true
    · rw [if_pos h, updateFirst_cons, if_pos (by rw [hf i]; exact h),
        updateFirst_cons, if_pos h]
    · rw [if_neg h, updateFirst_cons, if_neg h, updateFirst_cons, if_neg h, ih]

/-- Appending a matching line to a cart with no match makes it the first
match. -/
theorem curLine_append_right (pid : String) (l : CartLine) (hl : (l.id == pid) = true) :
    ∀ cart : List CartLine, curLine cart pid = none →
      curLine (cart ++ [l]) pid = some l := by
  intro cart
  induction cart with
  | nil => intro _; simp [curLine_cons, hl, curLine]
  | cons i rest ih =>
    intro h
    rw [curLine_cons] at h
    by_cases hi : (i.id == pid) = true
    · rw [if_pos hi] at h; exact absurd h (by simp)
    · rw [if_neg hi] at h
      rw [List.cons_append, curLine_cons, if_neg hi]
      exact ih h

/-- Mutating the first match in `cart ++ [l]` mutates `l` when `cart` has
no match. -/
theorem updateFirst_append_right (pid : String) (f : CartLine → CartLine)
    (l : CartLine) (hl : (l.id == pid) = true) :
    ∀ cart : List CartLine, curLine cart pid = none →
      updateFirst pid f (cart ++ [l]) = cart ++ [f l] := by
  intro cart
  induction cart with
  | nil => intro _; simp [updateFirst_cons, hl, updateFirst]
  | cons i rest ih =>
    intro h
    rw [curLine_cons] at h
    by_cases hi : (i.id == pid) = true
    · rw [if_pos hi] at h; exact absurd h (by simp)
    · rw [if_neg hi] at h
      rw [List.cons_append, updateFirst_cons, if_neg hi, ih h, List.cons_append]

/-- `add_cart` when the product id is not in the catalog. -/
theorem add_cart_not_found (prods : Catalog) (cart : List CartLine) (pid : String)
    (qty : ℤ) (hp : prods.lookup pid = none) :
    add_cart prods cart pid qty = (false, "STOCK_EMPTY", cart) := by
  unfold add_cart
  simp only [hp]

/-- `add_cart` when the product resolves in the catalog. -/
theorem add_cart_some (prods : Catalog) (cart : List CartLine) (pid : String)
    (qty : ℤ) (p : Product) (hp : prods.lookup pid = some p) :
    add_cart prods cart pid qty =
      (if p.stock < curQty cart pid + qty then (false, "STOCK_EMPTY", cart)
       else
         match curLine cart pid with
         | some _ => (true, "CART_ADDED",
             updateFirst pid (fun i => { i with qty := i.qty + qty }) cart)
         | none => (true, "CART_ADDED",
             cart ++ [⟨pid, p.fa, p.price, p.weight, qty⟩])) := by
  unfold add_cart
  simp only [hp]

/-! ## Helper lemmas on the stock commit and discounts -/

/-- The per-line scan leaves the store untouched and succeeds when no
record row carries the line's product id. -/
theorem commitLine_absent (pid : String) (qty : ℤ) :
    ∀ (records : List SheetRow) (idx : ℕ) (st : List SheetRow),
      (∀ r ∈ records, r.id ≠ pid) → commitLine pid qty records idx st = (true, st) := by
  intro records
  induction records with
  | nil => intro idx st _; rfl
  | cons r rest ih =>
    intro idx st h
    have hr : (r.id == pid) = false := by
      simpa using h r (by simp)
    unfold commitLine
    rw [hr]
    simp only [Bool.false_eq_true, if_false]
    exact ih (idx + 1) st (fun s hs => h s (by simp [hs]))

/-- The validity test of `ask_notes`, spelled out: the code is bound in
the map, active, and not yet expired. -/
theorem discountValid_iff (ds : List (String × Discount)) (now : ℤ) (code : String) :
    discountValid ds now code = true ↔
      ∃ d : Discount, ds.lookup code = some d ∧ d.is_active = true ∧ now ≤ d.valid_until := by
  unfold discountValid
  cases h : ds.lookup code with
  | none => simp
  | some d => simp [h]

/-! ## The claims -/

/-- C1: evaluation of `update_stock` at a two-line cart whose second line
exceeds the authoritative stock. The commit fails, as the spec demands,
but the first line's decrement (p1: 5 → 4) has already been written to the
store when the failure is detected, contradicting the spec's
"no partial decrements are persisted for lines already processed in this
pass". -/
theorem update_stock_partial_write_on_failure :
    update_stock [⟨"p1", "Rice", 10, "1kg", 1⟩, ⟨"p2", "Beans", 4, "500g", 1⟩]
        [⟨"p1", 5⟩, ⟨"p2", 0⟩] =
      (false, [⟨"p1", 4⟩, ⟨"p2", 0⟩]) ∧
    ([⟨"p1", 4⟩, ⟨"p2", 0⟩] : List SheetRow) ≠ [⟨"p1", 5⟩, ⟨"p2", 0⟩] := by
  decide

/-- C2: evaluation of the conversation at `/cancel`. In `AwaitingNotes`
the state handler (`filters.TEXT | filters.COMMAND` → `confirm_order`)
swallows `/cancel` before the cancel fallback can run: the order is
confirmed with notes text "/cancel", the stock store is decremented and an
order row is appended — contradicting the spec's "transitions directly to
Cancelled ... without side effects on stock or orders". In
`AwaitingDiscount` the input is treated as a discount code and rejected,
so the session is not cleared either. -/
theorem cancel_swallowed_in_late_states :
    ((conv_step "o" "t"
        { conv := ConvState.askNotes,
          sess := { name := "Ali", handle := "@ali", user_id := 7, phone := "333",
                    address := "Via Roma 5", postal := "06100", dest := "Perugia",
                    cart := [⟨"p1", "Rice", 10, "1kg", 1⟩] },
          store := [⟨"p1", 5⟩], orders := [], abandoned := [], discounts := [],
          now := 0 } "/cancel").store = [⟨"p1", 4⟩] ∧
      (conv_step "o" "t"
        { conv := ConvState.askNotes,
          sess := { name := "Ali", handle := "@ali", user_id := 7, phone := "333",
                    address := "Via Roma 5", postal := "06100", dest := "Perugia",
                    cart := [⟨"p1", "Rice", 10, "1kg", 1⟩] },
          store := [⟨"p1", 5⟩], orders := [], abandoned := [], discounts := [],
          now := 0 } "/cancel").orders.map (fun r => r.notes) = ["/cancel"]) ∧
    ((conv_step "o" "t"
        { conv := ConvState.askDiscount,
          sess := { address := "Via Roma 5", cart := [⟨"p1", "Rice", 10, "1kg", 1⟩] },
          store := [⟨"p1", 5⟩], orders := [], abandoned := [], discounts := [],
          now := 0 } "/cancel").conv = ConvState.askDiscount ∧
      (conv_step "o" "t"
        { conv := ConvState.askDiscount,
          sess := { address := "Via Roma 5", cart := [⟨"p1", "Rice", 10, "1kg", 1⟩] },
          store := [⟨"p1", 5⟩], orders := [], abandoned := [], discounts := [],
          now := 0 } "/cancel").sess.address = "Via Roma 5") := by
  decide

/-- C3 counterexample: in the live router (`main.py` lines 1530-1543) the
`dec_` callback on a line with quantity 1 computes
`item["qty"] = max(1, 0) = 1` and keeps the line — the cart is unchanged,
the line is not removed as the claim states. -/
theorem router_dec_keeps_qty_one_line :
    routerCartStep [] [⟨"p1", "Rice", 10, "1kg", 1⟩] (CartOp.dec "p1") =
      [⟨"p1", "Rice", 10, "1kg", 1⟩] ∧
    ([⟨"p1", "Rice", 10, "1kg", 1⟩] : List CartLine) ≠ [] := by
  decide

/-- C3 (amended): `handlers.decrement_item` on a first-matching line of
quantity 1 removes it; the live router's `dec_` callback instead clamps
the quantity at 1 and keeps the line; and any sequence of cart mutation
steps (either variant) preserves the invariant that no line has
quantity ≤ 0. -/
theorem decrement_and_cart_invariant (prods : Catalog) (cart rest : List CartLine)
    (l : CartLine) (ops : List CartOp) (hq : l.qty = 1) (hinv : CartInv cart) :
    decrement_item l.id (l :: rest) = (true, rest) ∧
    routerCartStep prods (l :: rest) (CartOp.dec l.id) = l :: rest ∧
    CartInv (ops.foldl (routerCartStep prods) cart) := by
  refine ⟨?_, ?_, CartInv_foldl prods ops cart hinv⟩
  · rw [decrement_item_cons, if_pos (by simp), if_pos (by omega)]
  · simp only [routerCartStep]
    have hc : curLine (l :: rest) l.id = some l := by
      rw [curLine_cons, if_pos (by simp)]
    rw [hc]
    rw [updateFirst_cons, if_pos (by simp)]
    have hl : ({ l with qty := max 1 (l.qty - 1) } : CartLine) = l := by
      obtain ⟨lid, lfa, lp, lw, lq⟩ := l
      have hq2 : lq = 1 := hq
      subst hq2
      simp [CartLine.mk.injEq]
    rw [hl]

/-- C3 witness: `decrement_item` removes the quantity-1 line `p1` from a
singleton cart, and the empty cart satisfies the invariant. -/
theorem decrement_and_cart_invariant_witness :
    decrement_item "p1" [⟨"p1", "Rice", 10, "1kg", 1⟩] = (true, []) :=
  (decrement_and_cart_invariant [] [] [] ⟨"p1", "Rice", 10, "1kg", 1⟩ [] rfl
    (fun i hi => absurd hi (List.not_mem_nil i))).1

/-- C5 counterexample: the claim quantifies over every requested quantity,
but `add_cart` with requested quantity 0 on a product with stock 0
succeeds (`stock < currentQty + qty` is `0 < 0`, false) and appends a
quantity-0 line — the call neither fails nor leaves the cart unchanged. -/
theorem add_cart_zero_stock_zero_qty_succeeds :
    add_cart [("p1", ⟨"rice", "Rice", "Riso", 10, "1kg", 0⟩)] [] "p1" 0 =
      (true, "CART_ADDED", [⟨"p1", "Rice", 10, "1kg", 0⟩]) ∧
    ([⟨"p1", "Rice", 10, "1kg", 0⟩] : List CartLine) ≠ [] := by
  decide

/-- C5 (amended): `add_cart` fails with the out-of-stock message and
leaves the cart unchanged when the id is absent from the catalog or when
the cached stock is below the quantity already in the cart plus the
requested quantity; every failure leaves the cart unchanged; and on a
product with stock 0 it always fails for requested quantity ≥ 1 (on carts
satisfying the quantity invariant, which every cart operation preserves). -/
theorem add_cart_failure_cases (prods : Catalog) (cart : List CartLine)
    (pid : String) (qty : ℤ) :
    (prods.lookup pid = none →
      add_cart prods cart pid qty = (false, "STOCK_EMPTY", cart)) ∧
    (∀ p : Product, prods.lookup pid = some p →
      p.stock < curQty cart pid + qty →
      add_cart prods cart pid qty = (false, "STOCK_EMPTY", cart)) ∧
    ((add_cart prods cart pid qty).1 = false →
      (add_cart prods cart pid qty).2.2 = cart ∧
      (add_cart prods cart pid qty).2.1 = "STOCK_EMPTY") ∧
    (∀ p : Product, prods.lookup pid = some p → p.stock = 0 → 1 ≤ qty →
      CartInv cart →
      add_cart prods cart pid qty = (false, "STOCK_EMPTY", cart)) := by
  refine ⟨?_, ?_, ?_, ?_⟩
  · intro h
    unfold add_cart
    simp only [h]
  · intro p hp hs
    unfold add_cart
    simp only [hp, if_pos hs]
  · intro hfail
    cases hp : prods.lookup pid with
    | none =>
      rw [add_cart_not_found prods cart pid qty hp]
      exact ⟨rfl, rfl⟩
    | some p =>
      by_cases hs : p.stock < curQty cart pid + qty
      · rw [add_cart_some prods cart pid qty p hp, if_pos hs]
        exact ⟨rfl, rfl⟩
      · exfalso
        rw [add_cart_some prods cart pid qty p hp, if_neg hs] at hfail
        revert hfail
        cases curLine cart pid <;> simp
  · intro p hp hz hq hinv
    have h0 : 0 ≤ curQty cart pid := curQty_nonneg cart pid hinv
    rw [add_cart_some prods cart pid qty p hp, hz, if_pos (by omega)]

/-- C5 witness: adding one unit of a stock-0 product to the empty cart
fails with the out-of-stock message and leaves the cart empty. -/
theorem add_cart_failure_cases_witness :
    add_cart [("p1", ⟨"rice", "Rice", "Riso", 10, "1kg", 0⟩)] [] "p1" 1 =
      (false, "STOCK_EMPTY", []) :=
  (add_cart_failure_cases [("p1", ⟨"rice", "Rice", "Riso", 10, "1kg", 0⟩)] [] "p1" 1).2.2.2
    ⟨"rice", "Rice", "Riso", 10, "1kg", 0⟩ rfl rfl (by norm_num)
    (fun i hi => absurd hi (List.not_mem_nil i))

/-- C6: `add_cart` is additive on quantity accounting — when the catalog
resolves the id and the cached stock allows four units beyond what the
cart holds, adding quantity 2 twice produces exactly the state of adding
quantity 4 once; and `cart_total` is the sum of quantity × price over the
lines, invariant under reordering of the lines. -/
theorem add_cart_additive_and_total (prods : Catalog) (cart : List CartLine)
    (pid : String) (p : Product) (hp : prods.lookup pid = some p)
    (hstock : curQty cart pid + 4 ≤ p.stock) :
    add_cart prods (add_cart prods cart pid 2).2.2 pid 2 = add_cart prods cart pid 4 ∧
    (∀ c : List CartLine,
      cart_total c = (c.map (fun i => (i.qty : ℚ) * i.price)).sum) ∧
    (∀ c1 c2 : List CartLine, c1.Perm c2 → cart_total c1 = cart_total c2) := by
  refine ⟨?_, fun c => rfl, fun c1 c2 hperm => ?_⟩
  case refine_2 =>
    unfold cart_total
    exact (hperm.map (fun i => (i.qty : ℚ) * i.price)).sum_eq
  have hid2 : ∀ i : CartLine, (({ i with qty := i.qty + 2 } : CartLine)).id = i.id :=
    fun i => rfl
  cases hc : curLine cart pid with
  | some c =>
    have hq : curQty cart pid = c.qty := by simp [curQty, hc]
    have h2 : ¬ p.stock < curQty cart pid + 2 := by omega
    have h4 : ¬ p.stock < curQty cart pid + 4 := by omega
    have hA : (add_cart prods cart pid 2).2.2 =
        updateFirst pid (fun i => { i with qty := i.qty + 2 }) cart := by
      rw [add_cart_some prods cart pid 2 p hp, if_neg h2]
      simp only [hc]
    have hc2 : curLine (add_cart prods cart pid 2).2.2 pid =
        some ({ c with qty := c.qty + 2 }) := by
      rw [hA, curLine_updateFirst pid _ hid2 cart, hc]
      rfl
    have hq2 : curQty (add_cart prods cart pid 2).2.2 pid = c.qty + 2 := by
      simp [curQty, hc2]
    have h2b : ¬ p.stock < curQty (add_cart prods cart pid 2).2.2 pid + 2 := by
      rw [hq2]; omega
    rw [add_cart_some prods (add_cart prods cart pid 2).2.2 pid 2 p hp, if_neg h2b]
    simp only [hc2]
    rw [add_cart_some prods cart pid 4 p hp, if_neg h4]
    simp only [hc]
    have h24 : ∀ i : CartLine,
        ({ ({ i with qty := i.qty + 2 } : CartLine) with
            qty := ({ i with qty := i.qty + 2 } : CartLine).qty + 2 } : CartLine) =
          { i with qty := i.qty + 4 } := by
      intro i
      obtain ⟨a, b, c0, d, q⟩ := i
      simp only [CartLine.mk.injEq]
      exact ⟨trivial, trivial, trivial, trivial, by omega⟩
    have hfinal : updateFirst pid (fun i => { i with qty := i.qty + 2 })
        ((add_cart prods cart pid 2).2.2) =
        updateFirst pid (fun i => { i with qty := i.qty + 4 }) cart := by
      rw [hA, updateFirst_updateFirst pid _ _ hid2 cart]
      exact updateFirst_congr pid _ _ h24 cart
    rw [hfinal]
  | none =>
    have hq0 : curQty cart pid = 0 := by simp [curQty, hc]
    have h2 : ¬ p.stock < curQty cart pid + 2 := by omega
    have h4 : ¬ p.stock < curQty cart pid + 4 := by omega
    have hA : (add_cart prods cart pid 2).2.2 =
        cart ++ [⟨pid, p.fa, p.price, p.weight, 2⟩] := by
      rw [add_cart_some prods cart pid 2 p hp, if_neg h2]
      simp only [hc]
    have hl : ((⟨pid, p.fa, p.price, p.weight, 2⟩ : CartLine).id == pid) = true := by
      simp
    have hc2 : curLine (add_cart prods cart pid 2).2.2 pid =
        some ⟨pid, p.fa, p.price, p.weight, 2⟩ := by
      rw [hA]
      exact curLine_append_right pid _ hl cart hc
    have hq2 : curQty (add_cart prods cart pid 2).2.2 pid = 2 := by
      simp [curQty, hc2]
    have h2b : ¬ p.stock < curQty (add_cart prods cart pid 2).2.2 pid + 2 := by
      rw [hq2]; omega
    rw [add_cart_some prods (add_cart prods cart pid 2).2.2 pid 2 p hp, if_neg h2b]
    simp only [hc2]
    rw [add_cart_some prods cart pid 4 p hp, if_neg h4]
    simp only [hc]
    have hfinal : updateFirst pid (fun i => { i with qty := i.qty + 2 })
        ((add_cart prods cart pid 2).2.2) =
        cart ++ [⟨pid, p.fa, p.price, p.weight, 4⟩] := by
      rw [hA, updateFirst_append_right pid _ _ hl cart hc]
      simp
    rw [hfinal]

/-- C6 witness: on an empty cart and a catalog with nine units of stock,
adding 2 twice equals adding 4 once, evaluated concretely. -/
theorem add_cart_additive_and_total_witness :
    add_cart [("p1", ⟨"rice", "Rice", "Riso", 10, "1kg", 9⟩)]
        (add_cart [("p1", ⟨"rice", "Rice", "Riso", 10, "1kg", 9⟩)] [] "p1" 2).2.2 "p1" 2 =
      add_cart [("p1", ⟨"rice", "Rice", "Riso", 10, "1kg", 9⟩)] [] "p1" 4 :=
  (add_cart_additive_and_total [("p1", ⟨"rice", "Rice", "Riso", 10, "1kg", 9⟩)] [] "p1"
    ⟨"rice", "Rice", "Riso", 10, "1kg", 9⟩ rfl (by decide)).1

/-- C7: `get_products` issues the version-marker read as the first store
operation of every call; and a second call whose time lies within the
expiry recorded after the first call, with the stored marker unchanged,
issues no full reload and returns the cached map and state of the first
call. -/
theorem get_products_probe_and_cache (cv : String) (f1 f2 : Catalog)
    (now1 now2 : ℤ) (s0 : GPState)
    (h : ∀ t : ℤ, ((get_products cv f1 now1 s0).2.2).ts = some t → now2 ≤ t) :
    (∀ (v : String) (fd : Catalog) (n : ℤ) (s : GPState),
      (get_products v fd n s).1.head? = some StoreOp.readMarker) ∧
    get_products cv f2 now2 (get_products cv f1 now1 s0).2.2 =
      ([StoreOp.readMarker], (get_products cv f1 now1 s0).2.1,
        (get_products cv f1 now1 s0).2.2) := by
  constructor
  · intro v fd n s
    unfold get_products
    by_cases hr : gp_needs_reload v n s = true <;> simp [hr]
  · by_cases hr : gp_needs_reload cv now1 s0 = true
    · have hs1 : get_products cv f1 now1 s0 =
          ([StoreOp.readMarker, StoreOp.fullReload], f1,
            ⟨some f1, some cv, some (now1 + 60)⟩) := by
        unfold get_products
        rw [if_pos hr]
      have ht : now2 ≤ now1 + 60 := h (now1 + 60) (by rw [hs1])
      have hnr : gp_needs_reload cv now2 ⟨some f1, some cv, some (now1 + 60)⟩ = false := by
        simp [gp_needs_reload]
        omega
      rw [hs1]
      unfold get_products
      rw [if_neg (by rw [hnr]; exact Bool.false_ne_true)]
      rfl
    · have hs1 : get_products cv f1 now1 s0 = ([StoreOp.readMarker], s0.data.getD [], s0) := by
        unfold get_products
        rw [if_neg hr]
      obtain ⟨d0, v0, t0⟩ := s0
      have hr0 : gp_needs_reload cv now1 ⟨d0, v0, t0⟩ = false :=
        Bool.eq_false_iff.mpr hr
      simp only [gp_needs_reload, Bool.or_eq_false_iff] at hr0
      obtain ⟨⟨⟨hd, hv⟩, hver⟩, hts⟩ := hr0
      have hnr2 : gp_needs_reload cv now2 ⟨d0, v0, t0⟩ = false := by
        simp only [gp_needs_reload, Bool.or_eq_false_iff]
        refine ⟨⟨⟨hd, hv⟩, hver⟩, ?_⟩
        cases t0 with
        | none => simp at hts
        | some t =>
          have h2 : now2 ≤ t := by
            apply h t
            rw [hs1]

          simp only [decide_eq_false_iff_not]
          omega
      rw [hs1]
      unfold get_products
      rw [if_neg (by rw [hnr2]; exact Bool.false_ne_true)]

/-- C7 witness: a cold first call at time 0 reloads and caches under
marker v1; the second call at time 30 (within the 60-second expiry)
performs only the marker read and returns the cached map. -/
theorem get_products_probe_and_cache_witness :
    get_products "v1" [] 30 (get_products "v1" [] 0 ⟨none, none, none⟩).2.2 =
      ([StoreOp.readMarker], (get_products "v1" [] 0 ⟨none, none, none⟩).2.1,
        (get_products "v1" [] 0 ⟨none, none, none⟩).2.2) :=
  (get_products_probe_and_cache "v1" [] [] 0 30 ⟨none, none, none⟩
    (by intro t ht; simp [get_products, gp_needs_reload] at ht; omega)).2

/-- C9: the retrier contract at its configured three attempts: a first
successful attempt returns the result with no sleeps; a non-API error at
any attempt propagates immediately; an API error retries after sleeping
`delay * 2 ^ attempt`; and when all three attempts raise API errors the
last one is re-raised after two sleeps. -/
theorem retry_gspread_contract (α : Type) (f : ℕ → Outcome α) (v : α)
    (e0 e1 e2 : String) (d : ℚ) :
    (f 0 = Outcome.ok v → retry_gspread f 3 d = (RetryResult.success v, [])) ∧
    (f 0 = Outcome.otherErr e0 →
      retry_gspread f 3 d = (RetryResult.otherFailure e0, [])) ∧
    (f 0 = Outcome.apiErr e0 → f 1 = Outcome.ok v →
      retry_gspread f 3 d = (RetryResult.success v, [d * 2 ^ 0])) ∧
    (f 0 = Outcome.apiErr e0 → f 1 = Outcome.otherErr e1 →
      retry_gspread f 3 d = (RetryResult.otherFailure e1, [d * 2 ^ 0])) ∧
    (f 0 = Outcome.apiErr e0 → f 1 = Outcome.apiErr e1 → f 2 = Outcome.ok v →
      retry_gspread f 3 d = (RetryResult.success v, [d * 2 ^ 0, d * 2 ^ 1])) ∧
    (f 0 = Outcome.apiErr e0 → f 1 = Outcome.apiErr e1 → f 2 = Outcome.otherErr e2 →
      retry_gspread f 3 d = (RetryResult.otherFailure e2, [d * 2 ^ 0, d * 2 ^ 1])) ∧
    (f 0 = Outcome.apiErr e0 → f 1 = Outcome.apiErr e1 → f 2 = Outcome.apiErr e2 →
      retry_gspread f 3 d = (RetryResult.apiFailure e2, [d * 2 ^ 0, d * 2 ^ 1])) := by
  refine ⟨?_, ?_, ?_, ?_, ?_, ?_, ?_⟩ <;> intros <;>
    simp [retry_gspread, retryGo, *]

/-- C9 witness: three consecutive API errors with base delay 1 end in the
third error being re-raised after sleeps of 1 and 2 seconds. -/
theorem retry_gspread_contract_witness :
    retry_gspread
        (fun n => if n = 0 then Outcome.apiErr "a"
          else if n = 1 then Outcome.apiErr "b" else (Outcome.apiErr "c" : Outcome ℕ))
        3 1 =
      (RetryResult.apiFailure "c", [1 * 2 ^ 0, 1 * 2 ^ 1]) :=
  (retry_gspread_contract ℕ
      (fun n => if n = 0 then Outcome.apiErr "a"
        else if n = 1 then Outcome.apiErr "b" else Outcome.apiErr "c")
      0 "a" "b" "c" 1).2.2.2.2.2.2 rfl rfl rfl

/-- C10: a cart line whose product id matches no record row leaves the
store untouched without aborting, and a cart consisting only of such
lines commits successfully with the store unchanged. -/
theorem update_stock_unknown_ids (store : List SheetRow) (cart : List CartLine)
    (h : ∀ it ∈ cart, ∀ r ∈ store, r.id ≠ it.id) :
    update_stock cart store = (true, store) ∧
    (∀ (pid : String) (qty : ℤ) (records st : List SheetRow) (idx : ℕ),
      (∀ r ∈ records, r.id ≠ pid) → commitLine pid qty records idx st = (true, st)) := by
  constructor
  · unfold update_stock
    induction cart with
    | nil => rfl
    | cons it rest ih =>
      have hline : commitLine it.id it.qty store 0 store = (true, store) :=
        commitLine_absent it.id it.qty store 0 store
          (fun r hr => h it (by simp) r hr)
      unfold commitCart
      rw [hline]
      exact ih (fun j hj r hr => h j (by simp [hj]) r hr)
  · intro pid qty records st idx habs
    exact commitLine_absent pid qty records idx st habs

/-- C10 witness: a one-line cart whose id appears nowhere in the store
commits successfully and leaves the store unchanged. -/
theorem update_stock_unknown_ids_witness :
    update_stock [⟨"zz", "Zaffron", 1, "1g", 3⟩] [⟨"p1", 5⟩] = (true, [⟨"p1", 5⟩]) :=
  (update_stock_unknown_ids [⟨"p1", 5⟩] [⟨"zz", "Zaffron", 1, "1g", 3⟩] (by decide)).1

/-- C4: at the `AwaitingDiscount` state a non-skip input is accepted
(state advances to `AwaitingNotes` with the trimmed code stored) exactly
when the code is bound in the freshly loaded discount map, is active, and
its validity end date is at or after now; rejected input leaves the world
unchanged, re-entering `AwaitingDiscount`; and at confirmation a chosen
code found in the freshly loaded map reduces the order total by exactly
`total × percent / 100`. -/
theorem discount_validation_and_reduction (oid ts : String) (w : World) (input : String)
    (hconv : w.conv = ConvState.askDiscount) (hskip : input ≠ "/skip") :
    (((conv_step oid ts w input).conv = ConvState.askNotes ∧
        (conv_step oid ts w input).sess.discount_code = some (pyStrip input)) ↔
      (∃ dd : Discount, w.discounts.lookup (pyStrip input) = some dd ∧
        dd.is_active = true ∧ w.now ≤ dd.valid_until)) ∧
    ((¬ ∃ dd : Discount, w.discounts.lookup (pyStrip input) = some dd ∧
        dd.is_active = true ∧ w.now ≤ dd.valid_until) →
      conv_step oid ts w input = w) ∧
    (∀ (w2 : World) (inp code : String) (dd : Discount) (st2 : List SheetRow),
      w2.conv = ConvState.askNotes → w2.sess.discount_code = some code →
      w2.discounts.lookup code = some dd → w2.sess.cart ≠ [] →
      update_stock w2.sess.cart w2.store = (true, st2) →
      (conv_step oid ts w2 inp).confirmedTotal =
        some (cart_total w2.sess.cart -
          cart_total w2.sess.cart * (dd.discount_percent / 100))) := by
  have hstep : conv_step oid ts w input = ask_notes w input := by
    unfold conv_step
    simp only [hconv]
  refine ⟨?_, ?_, ?_⟩
  · rw [hstep]
    unfold ask_notes
    rw [if_neg hskip]
    by_cases hval : discountValid w.discounts w.now (pyStrip input) = true
    · rw [if_pos hval]
      constructor
      · intro _
        exact (discountValid_iff _ _ _).mp hval
      · intro _
        exact ⟨rfl, rfl⟩
    · rw [if_neg hval]
      constructor
      · intro hcontra
        have hx := hcontra.1
        rw [hconv] at hx
        exact absurd hx (by simp)
      · intro hex
        exact absurd ((discountValid_iff _ _ _).mpr hex) hval
  · intro hnex
    rw [hstep]
    unfold ask_notes
    rw [if_neg hskip,
      if_neg (fun hval => hnex ((discountValid_iff _ _ _).mp hval))]
  · intro w2 inp code dd st2 hc2 hdc hlook hcart hus
    have hstep2 : conv_step oid ts w2 inp = confirm_order oid ts w2 inp := by
      unfold conv_step
      simp only [hc2]
    have hne : w2.sess.cart.isEmpty = false := by
      cases hcl : w2.sess.cart with
      | nil => exact absurd hcl hcart
      | cons a l => rfl
    rw [hstep2]
    unfold confirm_order
    simp [hus, hdc, hlook, hne]

/-- C4 witness: code X10 (10 percent, active, valid through time 100) is
accepted at time 50 and recorded on the session. -/
theorem discount_validation_and_reduction_witness :
    (conv_step "o" "t"
      { conv := ConvState.askDiscount,
        sess := { cart := [⟨"p1", "Rice", 10, "1kg", 2⟩] },
        store := [⟨"p1", 5⟩], orders := [], abandoned := [],
        discounts := [("X10", ⟨10, 100, true⟩)], now := 50 } "X10").sess.discount_code =
      some (pyStrip "X10") :=
  ((discount_validation_and_reduction "o" "t"
      { conv := ConvState.askDiscount,
        sess := { cart := [⟨"p1", "Rice", 10, "1kg", 2⟩] },
        store := [⟨"p1", 5⟩], orders := [], abandoned := [],
        discounts := [("X10", ⟨10, 100, true⟩)], now := 50 } "X10" rfl (by decide)).1.mpr
    ⟨⟨10, 100, true⟩, by decide, rfl, by decide⟩).2

/-- C8 counterexample: an abandoned-cart record appended for user 2's
session is present before user 1 confirms and gone afterwards — the
clearing wipes the whole log, not only the confirming session's records. -/
theorem confirm_wipes_other_sessions_records :
    (conv_step "o1" "t1"
      { conv := ConvState.askNotes,
        sess := { user_id := 1, cart := [⟨"p1", "Rice", 10, "1kg", 1⟩] },
        store := [⟨"p1", 5⟩], orders := [],
        abandoned := [⟨"t0", 2, [⟨"p2", "Beans", 4, "500g", 2⟩]⟩],
        discounts := [], now := 0 } "/skip").abandoned = [] ∧
    (⟨"t0", 2, [⟨"p2", "Beans", 4, "500g", 2⟩]⟩ : AbandonedRecord) ∈
      ({ conv := ConvState.askNotes,
         sess := { user_id := 1, cart := [⟨"p1", "Rice", 10, "1kg", 1⟩] },
         store := [⟨"p1", 5⟩], orders := [],
         abandoned := [⟨"t0", 2, [⟨"p2", "Beans", 4, "500g", 2⟩]⟩],
         discounts := [], now := 0 } : World).abandoned := by
  decide

/-- C8 (amended): when an order is confirmed (nonempty cart, successful
stock commit, chosen discount still resolvable), the entire abandoned-cart
worksheet is cleared — every record, of every session. -/
theorem confirm_clears_whole_abandoned_log (oid ts : String) (w : World) (input : String)
    (hconv : w.conv = ConvState.askNotes) (hcart : w.sess.cart ≠ [])
    (st2 : List SheetRow) (hus : update_stock w.sess.cart w.store = (true, st2))
    (hdisc : ∀ code, w.sess.discount_code = some code →
      ∃ dd : Discount, w.discounts.lookup code = some dd) :
    (conv_step oid ts w input).abandoned = [] := by
  have hstep : conv_step oid ts w input = confirm_order oid ts w input := by
    unfold conv_step
    simp only [hconv]
  have hne : w.sess.cart.isEmpty = false := by
    cases hcl : w.sess.cart with
    | nil => exact absurd hcl hcart
    | cons a l => rfl
  rw [hstep]
  unfold confirm_order
  cases hdc : w.sess.discount_code with
  | none => simp [hus, hdc, hne]
  | some code =>
    obtain ⟨dd, hdd⟩ := hdisc code hdc
    simp [hus, hdc, hdd, hne]

/-- C8 witness: a confirmation with a one-record log (belonging to user 4)
clears it. -/
theorem confirm_clears_whole_abandoned_log_witness :
    (conv_step "o2" "t2"
      { conv := ConvState.askNotes,
        sess := { user_id := 3, cart := [⟨"p1", "Rice", 10, "1kg", 2⟩] },
        store := [⟨"p1", 9⟩], orders := [],
        abandoned := [⟨"ta", 4, []⟩], discounts := [], now := 0 } "notes").abandoned = [] :=
  confirm_clears_whole_abandoned_log "o2" "t2"
    { conv := ConvState.askNotes,
      sess := { user_id := 3, cart := [⟨"p1", "Rice", 10, "1kg", 2⟩] },
      store := [⟨"p1", 9⟩], orders := [],
      abandoned := [⟨"ta", 4, []⟩], discounts := [], now := 0 } "notes" rfl
    (by decide) [⟨"p1", 7⟩] (by decide)
    (fun code hcode => absurd hcode (by simp))

end Bazarino
